import Mathlib

/-
Verification of the geometry-generation pipeline of the WebGL
"corrugated sphere" repository.

The definitions below are a shallow embedding of the JavaScript sources:
  - CreateSurfaceData, computeFaceNormalAndArea, computeFaceTangent,
    paramToUV, deg2rad and the FlatVertex record from the textured
    flat-shading variant (src/unnamed/part_001);
  - paramTo3D from src/model.js (marker placement).
JavaScript double arithmetic is idealised as real-number arithmetic;
JavaScript arrays become Lean lists.  The m4 vector helpers come from the
external webgl-3d-math library, which is not part of src/; they are
modelled from the specification (see the doc comments).
-/

namespace WebGL

/-- Vector of three real components, the embedding of a JS `[x, y, z]` array. -/
structure Vec3 where
  x : ℝ
  y : ℝ
  z : ℝ

/-- Modelled from the spec: `m4.subtractVectors` of the external
webgl-3d-math library (componentwise difference). -/
noncomputable def m4sub (a b : Vec3) : Vec3 :=
  ⟨a.x - b.x, a.y - b.y, a.z - b.z⟩

/-- Modelled from the spec: `m4.addVectors` of the external
webgl-3d-math library (componentwise sum). -/
noncomputable def m4add (a b : Vec3) : Vec3 :=
  ⟨a.x + b.x, a.y + b.y, a.z + b.z⟩

/-- Modelled from the spec: `m4.scaleVector` of the external
webgl-3d-math library (componentwise scaling). -/
noncomputable def m4scale (v : Vec3) (s : ℝ) : Vec3 :=
  ⟨v.x * s, v.y * s, v.z * s⟩

/-- Modelled from the spec: `m4.cross` of the external
webgl-3d-math library (standard 3D cross product). -/
noncomputable def m4cross (a b : Vec3) : Vec3 :=
  ⟨a.y * b.z - a.z * b.y, a.z * b.x - a.x * b.z, a.x * b.y - a.y * b.x⟩

/-- Modelled from the spec: `m4.length` of the external
webgl-3d-math library (Euclidean norm). -/
noncomputable def m4length (v : Vec3) : ℝ :=
  Real.sqrt (v.x * v.x + v.y * v.y + v.z * v.z)

/-- Modelled from the spec: `m4.normalize` of the external webgl-3d-math
library.  It divides by the length only when the length exceeds the
library's guard constant `0.00001`; otherwise the result is the zero
vector (the deterministic fallback required by spec section 7, which
demands that normalizing a zero vector must not produce NaN). -/
noncomputable def m4normalize (v : Vec3) : Vec3 :=
  if m4length v > 0.00001 then
    ⟨v.x / m4length v, v.y / m4length v, v.z / m4length v⟩
  else
    ⟨0, 0, 0⟩

/-- Embedding of `deg2rad` (src/unnamed/part_001, line 2). -/
noncomputable def deg2rad (angle : ℝ) : ℝ := angle * Real.pi / 180.0

/-- Closed form of one entry of the `vAngles` array of `CreateSurfaceData`:
`deg2rad(vDegMin + i * stepV)` with `vDegMin = -90`, `vDegMax = 90`,
`stepV = (vDegMax - vDegMin) / vCount`. -/
noncomputable def vAngleAt (vCount i : Nat) : ℝ :=
  let vDegMin : ℝ := -90
  let vDegMax : ℝ := 90
  let stepV : ℝ := (vDegMax - vDegMin) / vCount
  deg2rad (vDegMin + i * stepV)

/-- Closed form of one entry of the `uAngles` array of `CreateSurfaceData`:
`deg2rad(uDegMin + j * stepU)` with `uDegMin = 0`, `uDegMax = 360`,
`stepU = (uDegMax - uDegMin) / uCount`. -/
noncomputable def uAngleAt (uCount j : Nat) : ℝ :=
  let uDegMin : ℝ := 0
  let uDegMax : ℝ := 360
  let stepU : ℝ := (uDegMax - uDegMin) / uCount
  deg2rad (uDegMin + j * stepU)

/-- Embedding of the `vAngles` array of `CreateSurfaceData`
(src/unnamed/part_001, line 178): `vCount + 1` evenly spaced angles. -/
noncomputable def vAngles (vCount : Nat) : List ℝ :=
  (List.range (vCount + 1)).map (vAngleAt vCount)

/-- Embedding of the `uAngles` array of `CreateSurfaceData`
(src/unnamed/part_001, line 179): `uCount + 1` evenly spaced angles. -/
noncomputable def uAngles (uCount : Nat) : List ℝ :=
  (List.range (uCount + 1)).map (uAngleAt uCount)

/-- Embedding of the `vertexGrid` construction of `CreateSurfaceData`
(src/unnamed/part_001, lines 186-197), with the corrugated-sphere
parameters `R = 1.0`, `a = 0.24`, `n = 6` and the inline position
formula. -/
noncomputable def vertexGrid (uCount vCount : Nat) : List (List Vec3) :=
  (vAngles vCount).map (fun vRad =>
    (uAngles uCount).map (fun uRad =>
      let R : ℝ := 1.0
      let a : ℝ := 0.24
      let n : ℝ := 6
      let radial : ℝ := R * Real.cos vRad + a * (1 - Real.sin vRad) * |Real.cos (n * uRad)|
      let x := radial * Real.cos uRad
      let y := radial * Real.sin uRad
      let z := R * Real.sin vRad
      (⟨x, y, z⟩ : Vec3)))

/-- Parametric surface formula exactly as the spec states it (section 4.1):
`radial = R*cos(v) + a*(1 - sin(v))*|cos(n*u)|`, `x = radial*cos(u)`,
`y = radial*sin(u)`, `z = R*sin(v)` with `R = 1.0`, `a = 0.24`, `n = 6`. -/
noncomputable def surfacePoint (u v : ℝ) : Vec3 :=
  let R : ℝ := 1.0
  let a : ℝ := 0.24
  let n : ℝ := 6
  let radial : ℝ := R * Real.cos v + a * (1 - Real.sin v) * |Real.cos (n * u)|
  let x := radial * Real.cos u
  let y := radial * Real.sin u
  let z := R * Real.sin v
  ⟨x, y, z⟩

/-- Embedding of `paramTo3D` (src/model.js, lines 387-397), the marker
placement function. -/
noncomputable def paramTo3D (u v : ℝ) : Vec3 :=
  let R : ℝ := 1.0
  let a : ℝ := 0.24
  let n : ℝ := 6
  let radial : ℝ := R * Real.cos v + a * (1 - Real.sin v) * |Real.cos (n * u)|
  let x := radial * Real.cos u
  let y := radial * Real.sin u
  let z := R * Real.sin v
  ⟨x, y, z⟩

/-- Lookup of a grid point at lattice coordinate `(iv, iu)`;
the embedding of `vertexGrid[iv][iu]`. -/
noncomputable def gridAt (uCount vCount iv iu : Nat) : Vec3 :=
  ((vertexGrid uCount vCount).getD iv []).getD iu ⟨0, 0, 0⟩

/-- Embedding of `indexOf` (src/unnamed/part_001, lines 199-201):
flattening of a lattice coordinate into an index of `vertexGrid.flat()`. -/
def indexOf (uCount iv iu : Nat) : Nat := iv * (uCount + 1) + iu

/-- Embedding of the `faces` loop of `CreateSurfaceData`
(src/unnamed/part_001, lines 204-213): two triangles per grid cell,
pushed in row-major cell order. -/
def faces (uCount vCount : Nat) : List (Nat × Nat × Nat) :=
  (List.range vCount).flatMap (fun iv =>
    (List.range uCount).flatMap (fun iu =>
      let i0 := indexOf uCount iv iu
      let i1 := indexOf uCount iv (iu + 1)
      let i2 := indexOf uCount (iv + 1) iu
      let i3 := indexOf uCount (iv + 1) (iu + 1)
      [(i0, i2, i1), (i1, i2, i3)]))

/-- Embedding of `computeFaceNormalAndArea` (src/unnamed/part_001,
lines 129-138): unit face normal and face area, with the degenerate
placeholder `(0,0,1)` and area `0` when the area falls below `1e-14`. -/
noncomputable def computeFaceNormalAndArea (p0 p1 p2 : Vec3) : Vec3 × ℝ :=
  let u := m4sub p1 p0
  let v := m4sub p2 p0
  let cross := m4cross u v
  let area := m4length cross * 0.5
  if area < 1e-14 then (⟨0, 0, 1⟩, 0)
  else (m4normalize cross, area)

/-- Embedding of `computeFaceTangent` (src/unnamed/part_001,
lines 143-159): UV-gradient face tangent with the `(1,0,0)` fallback
when the UV determinant is below `1e-14`. -/
noncomputable def computeFaceTangent (p0 p1 p2 : Vec3) (uv0 uv1 uv2 : ℝ × ℝ) : Vec3 :=
  let edge1 := m4sub p1 p0
  let edge2 := m4sub p2 p0
  let deltaUV1 : ℝ × ℝ := (uv1.1 - uv0.1, uv1.2 - uv0.2)
  let deltaUV2 : ℝ × ℝ := (uv2.1 - uv0.1, uv2.2 - uv0.2)
  let f := deltaUV1.1 * deltaUV2.2 - deltaUV1.2 * deltaUV2.1
  if |f| < 1e-14 then ⟨1.0, 0.0, 0.0⟩
  else
    let fi := 1.0 / f
    ⟨fi * (edge1.x * deltaUV2.2 - edge2.x * deltaUV1.2),
     fi * (edge1.y * deltaUV2.2 - edge2.y * deltaUV1.2),
     fi * (edge1.z * deltaUV2.2 - edge2.z * deltaUV1.2)⟩

/-- Embedding of `vertexGrid.flat()` (src/unnamed/part_001), the flat
array of unique grid vertices indexed by `indexOf`. -/
noncomputable def vertexArray (uCount vCount : Nat) : List Vec3 :=
  (vertexGrid uCount vCount).flatten

/-- Array lookup of a vector; in the source all such lookups are in
range, so the default is never observed. -/
noncomputable def getV (l : List Vec3) (i : Nat) : Vec3 := l.getD i ⟨0, 0, 0⟩

/-- Embedding of the weighted-normal accumulation loop of
`CreateSurfaceData` (src/unnamed/part_001, lines 216-226): starting from
zero vectors, each face adds `normal * area` at its three lattice
indices. -/
noncomputable def accumNormals (uCount vCount : Nat) : List Vec3 :=
  (faces uCount vCount).foldl
    (fun acc f =>
      let pA := getV (vertexArray uCount vCount) f.1
      let pB := getV (vertexArray uCount vCount) f.2.1
      let pC := getV (vertexArray uCount vCount) f.2.2
      let na := computeFaceNormalAndArea pA pB pC
      let acc1 := acc.set f.1 (m4add (getV acc f.1) (m4scale na.1 na.2))
      let acc2 := acc1.set f.2.1 (m4add (getV acc1 f.2.1) (m4scale na.1 na.2))
      acc2.set f.2.2 (m4add (getV acc2 f.2.2) (m4scale na.1 na.2)))
    ((vertexArray uCount vCount).map (fun _ => ⟨0, 0, 0⟩))

/-- Embedding of `normalizedNormals` (src/unnamed/part_001, line 227). -/
noncomputable def normalizedNormals (uCount vCount : Nat) : List Vec3 :=
  (accumNormals uCount vCount).map m4normalize

/-- Embedding of `paramToUV` (src/unnamed/part_001, lines 235-247):
texture coordinates from the sampled angle arrays. -/
noncomputable def paramToUV (uCount vCount iv iu : Nat) : ℝ × ℝ :=
  let vRad := (vAngles vCount).getD iv 0
  let uRad := (uAngles uCount).getD iu 0
  let uCoord := uRad / (2.0 * Real.pi)
  let vCoord := (vRad + Real.pi * 0.5) / Real.pi
  (uCoord, vCoord)

/-- Embedding of the `FlatVertex` record (src/unnamed/part_001,
lines 11-23): replicated render vertex with position, normal, tangent
and texture coordinates. -/
structure FlatVertex where
  x : ℝ
  y : ℝ
  z : ℝ
  nx : ℝ
  ny : ℝ
  nz : ℝ
  tx : ℝ
  ty : ℝ
  tz : ℝ
  u : ℝ
  v : ℝ

/-- Embedding of the flat-shading replication loop of
`CreateSurfaceData` (src/unnamed/part_001, lines 249-296): per face, the
re-averaged face normal, decoded lattice coordinates, per-corner UVs,
the normalized face tangent, and three replicated vertices. -/
noncomputable def flatVertices (uCount vCount : Nat) : List FlatVertex :=
  (faces uCount vCount).flatMap (fun f =>
    let iA := f.1
    let iB := f.2.1
    let iC := f.2.2
    let pA := getV (vertexArray uCount vCount) iA
    let pB := getV (vertexArray uCount vCount) iB
    let pC := getV (vertexArray uCount vCount) iC
    let nA := getV (normalizedNormals uCount vCount) iA
    let nB := getV (normalizedNormals uCount vCount) iB
    let nC := getV (normalizedNormals uCount vCount) iC
    let sumABC := m4add (m4add nA nB) nC
    let faceNormal := m4normalize sumABC
    let ivA := iA / (uCount + 1)
    let iuA := iA % (uCount + 1)
    let ivB := iB / (uCount + 1)
    let iuB := iB % (uCount + 1)
    let ivC := iC / (uCount + 1)
    let iuC := iC % (uCount + 1)
    let uvA := paramToUV uCount vCount ivA iuA
    let uvB := paramToUV uCount vCount ivB iuB
    let uvC := paramToUV uCount vCount ivC iuC
    let faceTangent := m4normalize (computeFaceTangent pA pB pC uvA uvB uvC)
    [ ⟨pA.x, pA.y, pA.z, faceNormal.x, faceNormal.y, faceNormal.z,
       faceTangent.x, faceTangent.y, faceTangent.z, uvA.1, uvA.2⟩,
      ⟨pB.x, pB.y, pB.z, faceNormal.x, faceNormal.y, faceNormal.z,
       faceTangent.x, faceTangent.y, faceTangent.z, uvB.1, uvB.2⟩,
      ⟨pC.x, pC.y, pC.z, faceNormal.x, faceNormal.y, faceNormal.z,
       faceTangent.x, faceTangent.y, faceTangent.z, uvC.1, uvC.2⟩ ])

/-- Embedding of the `positions` typed-array packing
(src/unnamed/part_001, lines 299-309): three floats per flat vertex. -/
noncomputable def positions (uCount vCount : Nat) : List ℝ :=
  (flatVertices uCount vCount).flatMap (fun fv => [fv.x, fv.y, fv.z])

/-- Embedding of the `normals` typed-array packing
(src/unnamed/part_001, lines 299-309): three floats per flat vertex. -/
noncomputable def normals (uCount vCount : Nat) : List ℝ :=
  (flatVertices uCount vCount).flatMap (fun fv => [fv.nx, fv.ny, fv.nz])

/-- Embedding of the `tangents` typed-array packing
(src/unnamed/part_001, lines 299-309): three floats per flat vertex. -/
noncomputable def tangents (uCount vCount : Nat) : List ℝ :=
  (flatVertices uCount vCount).flatMap (fun fv => [fv.tx, fv.ty, fv.tz])

/-- Embedding of the `texcoords` typed-array packing
(src/unnamed/part_001, lines 299-309): two floats per flat vertex. -/
noncomputable def texcoords (uCount vCount : Nat) : List ℝ :=
  (flatVertices uCount vCount).flatMap (fun fv => [fv.u, fv.v])

/-- Embedding of `flatIndices` (src/unnamed/part_001, lines 230-295):
`idxCounter` starts at 0 and is pushed then incremented once per
replicated vertex, so the list is `0, 1, ...` up to the number of flat
vertices. -/
noncomputable def flatIndices (uCount vCount : Nat) : List Nat :=
  List.range (flatVertices uCount vCount).length

/-- Embedding of `indices = new Uint16Array(flatIndices)`
(src/unnamed/part_001, line 310): the JavaScript `Uint16Array`
conversion reduces every element modulo `2^16 = 65536`. -/
noncomputable def indices (uCount vCount : Nat) : List Nat :=
  (flatIndices uCount vCount).map (fun i => i % 65536)

/-- Length of a `flatMap` whose blocks all have the same length. -/
theorem length_flatMap_const {α β : Type} (g : α → List β) (c : Nat)
    (h : ∀ x, (g x).length = c) (l : List α) :
    (l.flatMap g).length = c * l.length := by
  induction l with
  | nil => simp
  | cons a t ih =>
    simp only [List.flatMap_cons, List.length_append, ih, h a, List.length_cons]
    ring

/-- Element lookup inside a `flatMap` over `List.range` whose blocks all
have the same length `c`: position `c * i + j` lands in block `i` at
offset `j`. -/
theorem getElem?_range_flatMap {α : Type} (g : Nat → List α) (c : Nat)
    (h : ∀ x, (g x).length = c) :
    ∀ (n i j : Nat), i < n → j < c →
      ((List.range n).flatMap g)[c * i + j]? = (g i)[j]? := by
  intro n
  induction n with
  | zero => intro i j hi _; exact absurd hi (Nat.not_lt_zero i)
  | succ m ih =>
    intro i j hi hj
    rw [List.range_succ, List.flatMap_append]
    have hlen : ((List.range m).flatMap g).length = c * m :=
      length_flatMap_const g c h _ |>.trans (by rw [List.length_range])
    rcases Nat.lt_or_ge i m with him | him
    · have hidx : c * i + j < c * m := by
        calc c * i + j < c * i + c := by omega
        _ = c * (i + 1) := by ring
        _ ≤ c * m := Nat.mul_le_mul_left c him
      rw [List.getElem?_append, if_pos (hlen ▸ hidx)]
      exact ih i j him hj
    · have him' : i = m := by omega
      subst him'
      rw [List.getElem?_append_right (by omega)]
      simp only [hlen, List.flatMap_cons, List.flatMap_nil, List.append_nil]
      have hj' : c * i + j - c * i = j := by omega
      rw [hj']

/-- Each grid cell contributes exactly two triangles to `faces`. -/
theorem faces_length (uCount vCount : Nat) :
    (faces uCount vCount).length = 2 * uCount * vCount := by
  rw [faces, length_flatMap_const _ (2 * uCount)]
  · rw [List.length_range]
  · intro iv
    rw [length_flatMap_const _ 2]
    · rw [List.length_range]
    · intro iu; rfl

/-- Each triangle contributes exactly three replicated flat vertices. -/
theorem flatVertices_length (uCount vCount : Nat) :
    (flatVertices uCount vCount).length = 6 * uCount * vCount := by
  rw [flatVertices, length_flatMap_const _ 3, faces_length]
  · ring
  · intro f; rfl

/-- Packed position buffer holds three reals per flat vertex. -/
theorem positions_length (uCount vCount : Nat) :
    (positions uCount vCount).length = 3 * (6 * uCount * vCount) := by
  rw [positions, length_flatMap_const _ 3, flatVertices_length]
  intro fv; rfl

/-- Packed normal buffer holds three reals per flat vertex. -/
theorem normals_length (uCount vCount : Nat) :
    (normals uCount vCount).length = 3 * (6 * uCount * vCount) := by
  rw [normals, length_flatMap_const _ 3, flatVertices_length]
  intro fv; rfl

/-- Packed tangent buffer holds three reals per flat vertex. -/
theorem tangents_length (uCount vCount : Nat) :
    (tangents uCount vCount).length = 3 * (6 * uCount * vCount) := by
  rw [tangents, length_flatMap_const _ 3, flatVertices_length]
  intro fv; rfl

/-- Packed texture-coordinate buffer holds two reals per flat vertex. -/
theorem texcoords_length (uCount vCount : Nat) :
    (texcoords uCount vCount).length = 2 * (6 * uCount * vCount) := by
  rw [texcoords, length_flatMap_const _ 2, flatVertices_length]
  intro fv; rfl

/-- Closed form of the emitted index list: the identity sequence reduced
modulo the 16-bit range by the `Uint16Array` conversion. -/
theorem indices_eq (uCount vCount : Nat) :
    indices uCount vCount =
      (List.range (6 * uCount * vCount)).map (fun i => i % 65536) := by
  rw [indices, flatIndices, flatVertices_length]

/-- Grid lookup in closed form: entry `(iv, iu)` of `vertexGrid` is the
surface formula evaluated at the sampled angles. -/
theorem gridAt_eq (uCount vCount iv iu : Nat) (hiv : iv ≤ vCount) (hiu : iu ≤ uCount) :
    gridAt uCount vCount iv iu = surfacePoint (uAngleAt uCount iu) (vAngleAt vCount iv) := by
  have h1 : iv < vCount + 1 := Nat.lt_succ_of_le hiv
  have h2 : iu < uCount + 1 := Nat.lt_succ_of_le hiu
  simp [gridAt, vertexGrid, vAngles, uAngles, List.getD_eq_getElem?_getD,
    List.getElem?_map, List.getElem?_range, h1, h2, surfacePoint]

/-- First sampled u-angle is zero. -/
theorem uAngleAt_zero (uCount : Nat) : uAngleAt uCount 0 = 0 := by
  simp [uAngleAt, deg2rad]

/-- Last sampled u-angle is a full turn. -/
theorem uAngleAt_last (uCount : Nat) (hu : 1 ≤ uCount) :
    uAngleAt uCount uCount = 2 * Real.pi := by
  have h : ((uCount : ℝ)) ≠ 0 := Nat.cast_ne_zero.mpr (by omega)
  simp only [uAngleAt, deg2rad]
  field_simp
  ring

/-- First sampled v-angle is the south pole. -/
theorem vAngleAt_zero (vCount : Nat) : vAngleAt vCount 0 = -(Real.pi / 2) := by
  simp only [vAngleAt, deg2rad]
  push_cast
  ring

/-- UV lookup in closed form: `paramToUV` reads the sampled angle arrays
and applies the normalising transform of the source. -/
theorem paramToUV_eq (uCount vCount iv iu : Nat) (hiv : iv ≤ vCount) (hiu : iu ≤ uCount) :
    paramToUV uCount vCount iv iu =
      (uAngleAt uCount iu / (2.0 * Real.pi),
       (vAngleAt vCount iv + Real.pi * 0.5) / Real.pi) := by
  have h1 : iv < vCount + 1 := Nat.lt_succ_of_le hiv
  have h2 : iu < uCount + 1 := Nat.lt_succ_of_le hiu
  simp [paramToUV, vAngles, uAngles, List.getD_eq_getElem?_getD,
    List.getElem?_map, List.getElem?_range, h1, h2]

/-- Normalization of the zero vector yields the zero vector, not NaN. -/
theorem m4normalize_zero : m4normalize ⟨0, 0, 0⟩ = ⟨0, 0, 0⟩ := by
  have h0 : ¬ (m4length (⟨0, 0, 0⟩ : Vec3) > 0.00001) := by
    norm_num [m4length, Real.sqrt_zero]
  rw [m4normalize, if_neg h0]

/-- Result of `m4.normalize` is either an exact unit vector or the zero
vector emitted by the small-length guard. -/
theorem m4normalize_unit_or_zero (w : Vec3) :
    m4length (m4normalize w) = 1 ∨ m4normalize w = ⟨0, 0, 0⟩ := by
  by_cases hg : m4length w > 0.00001
  · left
    have hs : (0 : ℝ) ≤ w.x * w.x + w.y * w.y + w.z * w.z :=
      add_nonneg (add_nonneg (mul_self_nonneg _) (mul_self_nonneg _)) (mul_self_nonneg _)
    have hLpos : 0 < m4length w := lt_trans (by norm_num) hg
    have hL0 : m4length w ≠ 0 := ne_of_gt hLpos
    have hsq : m4length w * m4length w = w.x * w.x + w.y * w.y + w.z * w.z :=
      Real.mul_self_sqrt hs
    have hne : w.x * w.x + w.y * w.y + w.z * w.z ≠ 0 := by
      rw [← hsq]
      exact mul_ne_zero hL0 hL0
    have key : w.x / m4length w * (w.x / m4length w) +
        w.y / m4length w * (w.y / m4length w) +
        w.z / m4length w * (w.z / m4length w) = 1 := by
      have hrw : w.x / m4length w * (w.x / m4length w) +
          w.y / m4length w * (w.y / m4length w) +
          w.z / m4length w * (w.z / m4length w) =
          (w.x * w.x + w.y * w.y + w.z * w.z) / (m4length w * m4length w) := by
        ring
      rw [hrw, hsq, div_self hne]
    rw [m4normalize, if_pos hg]
    show Real.sqrt (w.x / m4length w * (w.x / m4length w) +
        w.y / m4length w * (w.y / m4length w) +
        w.z / m4length w * (w.z / m4length w)) = 1
    rw [key, Real.sqrt_one]
  · right
    rw [m4normalize, if_neg hg]

/-- The surface formula takes the same value at `u = 0` and at a full
turn `u = 2π`, for every `v`. -/
theorem surfacePoint_two_pi (w : ℝ) : surfacePoint 0 w = surfacePoint (2 * Real.pi) w := by
  have hc6 : Real.cos (6 * (2 * Real.pi)) = 1 := by
    have h := Real.cos_nat_mul_two_pi 6
    push_cast at h
    exact h
  simp only [surfacePoint, Vec3.mk.injEq]
  rw [Real.cos_two_pi, Real.sin_two_pi, hc6]
  norm_num

/-- Every normal and tangent stored in a flat vertex is an output of
`m4.normalize`: an exact unit vector or the zero fallback. -/
theorem mem_flatVertices_shape (uCount vCount : Nat) (fv : FlatVertex)
    (hfv : fv ∈ flatVertices uCount vCount) :
    (m4length ⟨fv.nx, fv.ny, fv.nz⟩ = 1 ∨ (⟨fv.nx, fv.ny, fv.nz⟩ : Vec3) = ⟨0, 0, 0⟩) ∧
    (m4length ⟨fv.tx, fv.ty, fv.tz⟩ = 1 ∨ (⟨fv.tx, fv.ty, fv.tz⟩ : Vec3) = ⟨0, 0, 0⟩) := by
  rw [flatVertices, List.mem_flatMap] at hfv
  obtain ⟨f, hf, hmem⟩ := hfv
  simp only [List.mem_cons, List.not_mem_nil, or_false] at hmem
  rcases hmem with rfl | rfl | rfl <;>
    exact ⟨m4normalize_unit_or_zero _, m4normalize_unit_or_zero _⟩

/-- Generic lookup of one of the two triangles emitted for grid cell
`(iv, iu)`. -/
theorem faces_getElem? (uCount vCount iv iu : Nat)
    (hiv : iv < vCount) (hiu : iu < uCount) (j : Nat) (hj : j < 2) :
    (faces uCount vCount)[2 * (iv * uCount + iu) + j]? =
      ([(indexOf uCount iv iu, indexOf uCount (iv + 1) iu, indexOf uCount iv (iu + 1)),
        (indexOf uCount iv (iu + 1), indexOf uCount (iv + 1) iu,
         indexOf uCount (iv + 1) (iu + 1))])[j]? := by
  rw [faces]
  have hc : 2 * (iv * uCount + iu) + j = 2 * uCount * iv + (2 * iu + j) := by ring
  rw [hc]
  have houter : ∀ x, ((List.range uCount).flatMap (fun iu =>
      let i0 := indexOf uCount x iu
      let i1 := indexOf uCount x (iu + 1)
      let i2 := indexOf uCount (x + 1) iu
      let i3 := indexOf uCount (x + 1) (iu + 1)
      [(i0, i2, i1), (i1, i2, i3)])).length = 2 * uCount := by
    intro x
    rw [length_flatMap_const _ 2, List.length_range]
    intro y; rfl
  rw [getElem?_range_flatMap _ (2 * uCount) houter vCount iv (2 * iu + j) hiv (by omega)]
  rw [getElem?_range_flatMap _ 2 _ uCount iu j hiu hj]
  intro y; rfl

/-- C1: for every uCount ≥ 1 and vCount ≥ 1 the pipeline generates
exactly 2*uCount*vCount triangles and 6*uCount*vCount replicated flat
vertices, so positions, normals and tangents each pack
3*(6*uCount*vCount) reals and texcoords packs 2*(6*uCount*vCount). -/
theorem c1_counts (uCount vCount : Nat) (_hu : 1 ≤ uCount) (_hv : 1 ≤ vCount) :
    (faces uCount vCount).length = 2 * uCount * vCount ∧
    (flatVertices uCount vCount).length = 6 * uCount * vCount ∧
    (positions uCount vCount).length = 3 * (6 * uCount * vCount) ∧
    (normals uCount vCount).length = 3 * (6 * uCount * vCount) ∧
    (tangents uCount vCount).length = 3 * (6 * uCount * vCount) ∧
    (texcoords uCount vCount).length = 2 * (6 * uCount * vCount) :=
  ⟨faces_length uCount vCount, flatVertices_length uCount vCount,
   positions_length uCount vCount, normals_length uCount vCount,
   tangents_length uCount vCount, texcoords_length uCount vCount⟩

/-- Witness for C1 at the spec's end-to-end example resolution (4, 2). -/
theorem c1_counts_witness :
    (1 : Nat) ≤ 4 ∧ (1 : Nat) ≤ 2 ∧
    ((faces 4 2).length = 2 * 4 * 2 ∧
     (flatVertices 4 2).length = 6 * 4 * 2 ∧
     (positions 4 2).length = 3 * (6 * 4 * 2) ∧
     (normals 4 2).length = 3 * (6 * 4 * 2) ∧
     (tangents 4 2).length = 3 * (6 * 4 * 2) ∧
     (texcoords 4 2).length = 2 * (6 * 4 * 2)) :=
  ⟨by decide, by decide, c1_counts 4 2 (by decide) (by decide)⟩

/-- C2 (defect witness): at resolution 128 x 128 the flat vertex count is
6*128*128 = 98304 > 65536, and the `Uint16Array` conversion wraps, so the
emitted index array is not the identity sequence: its entry 65536 is 0
where the identity sequence has 65536. -/
theorem c2_uint16_wrap :
    (indices 128 128)[65536]? = some 0 ∧
    (List.range (6 * 128 * 128))[65536]? = some 65536 ∧
    indices 128 128 ≠ List.range (6 * 128 * 128) := by
  have h1 : (indices 128 128)[65536]? = some 0 := by
    rw [indices_eq, List.getElem?_map, List.getElem?_range (by norm_num)]
    norm_num
  have h2 : (List.range (6 * 128 * 128))[65536]? = some 65536 :=
    List.getElem?_range (by norm_num)
  refine ⟨h1, h2, fun h => ?_⟩
  rw [h, h2] at h1
  exact absurd (Option.some.inj h1) (by norm_num)

/-- C2 (amended behaviour): as long as the flat vertex count stays within
the 16-bit range, the emitted index array is exactly the identity
sequence 0, 1, ..., N-1. -/
theorem c2_identity_within_16bit (uCount vCount : Nat)
    (h : 6 * uCount * vCount ≤ 65536) :
    indices uCount vCount = List.range (6 * uCount * vCount) := by
  rw [indices_eq]
  apply List.ext_getElem?
  intro i
  rw [List.getElem?_map]
  rcases Nat.lt_or_ge i (6 * uCount * vCount) with hi | hi
  · rw [List.getElem?_range hi, Option.map_some']
    have : i % 65536 = i := Nat.mod_eq_of_lt (by omega)
    rw [this]
  · rw [List.getElem?_eq_none (by simpa using hi)]
    rfl

/-- Witness for the amended C2 at resolution (4, 2): 48 indices, the
identity sequence. -/
theorem c2_identity_within_16bit_witness :
    6 * 4 * 2 ≤ 65536 ∧ indices 4 2 = List.range (6 * 4 * 2) :=
  ⟨by decide, c2_identity_within_16bit 4 2 (by decide)⟩

/-- C3: cell (iv, iu) of the triangulation yields the two triangles
(i0, i2, i1) and (i1, i2, i3) at positions 2*(iv*uCount + iu) and
2*(iv*uCount + iu) + 1, with the corners given by the row-major lattice
flattening indexOf. -/
theorem c3_triangulation (uCount vCount iv iu : Nat)
    (hiv : iv < vCount) (hiu : iu < uCount) :
    (faces uCount vCount)[2 * (iv * uCount + iu)]? =
      some (indexOf uCount iv iu, indexOf uCount (iv + 1) iu, indexOf uCount iv (iu + 1)) ∧
    (faces uCount vCount)[2 * (iv * uCount + iu) + 1]? =
      some (indexOf uCount iv (iu + 1), indexOf uCount (iv + 1) iu,
        indexOf uCount (iv + 1) (iu + 1)) := by
  constructor
  · have h := faces_getElem? uCount vCount iv iu hiv hiu 0 (by omega)
    simpa using h
  · have h := faces_getElem? uCount vCount iv iu hiv hiu 1 (by omega)
    simpa using h

/-- Witness for C3 at resolution (4, 2), cell (1, 2). -/
theorem c3_triangulation_witness :
    (1 : Nat) < 2 ∧ (2 : Nat) < 4 ∧
    ((faces 4 2)[2 * (1 * 4 + 2)]? =
      some (indexOf 4 1 2, indexOf 4 2 2, indexOf 4 1 3) ∧
     (faces 4 2)[2 * (1 * 4 + 2) + 1]? =
      some (indexOf 4 1 3, indexOf 4 2 2, indexOf 4 2 3)) :=
  ⟨by decide, by decide, c3_triangulation 4 2 1 2 (by decide) (by decide)⟩

/-- C5 (defect witness): with uCount = 0 the pipeline performs no
rejection: it still builds a degenerate grid of vCount + 1 rows with a
single column each (the step 360/0 having produced a meaningless angle)
and runs to completion returning empty triangle, vertex, position and
index buffers. -/
theorem c5_no_rejection :
    faces 0 2 = [] ∧ flatVertices 0 2 = [] ∧ positions 0 2 = [] ∧
    indices 0 2 = [] ∧ (vertexGrid 0 2).length = 3 ∧
    (vertexGrid 0 2).map List.length = [1, 1, 1] := by
  have hf : faces 0 2 = [] := rfl
  have hfv : flatVertices 0 2 = [] := by
    rw [flatVertices, hf]; rfl
  refine ⟨hf, hfv, ?_, ?_, ?_, ?_⟩
  · rw [positions, hfv]; rfl
  · rw [indices, flatIndices, hfv]; rfl
  · simp [vertexGrid, vAngles]
  · simp [vertexGrid, vAngles, uAngles, List.range_succ]

/-- C7: every normal and every tangent written into the flat vertex
stream is an output of m4.normalize, hence either an exact unit vector
(within any tolerance, in particular 1e-5) or the explicit zero-vector
fallback of the normalize guard; and normalizing an exactly zero
accumulated sum yields that zero fallback, never NaN. -/
theorem c7_unit_normals (uCount vCount : Nat) :
    (flatVertices uCount vCount).Forall
      (fun fv =>
        (m4length ⟨fv.nx, fv.ny, fv.nz⟩ = 1 ∨ (⟨fv.nx, fv.ny, fv.nz⟩ : Vec3) = ⟨0, 0, 0⟩) ∧
        (m4length ⟨fv.tx, fv.ty, fv.tz⟩ = 1 ∨ (⟨fv.tx, fv.ty, fv.tz⟩ : Vec3) = ⟨0, 0, 0⟩)) ∧
    m4normalize ⟨0, 0, 0⟩ = ⟨0, 0, 0⟩ := by
  constructor
  · rw [List.forall_iff_forall_mem]
    intro fv hfv
    exact mem_flatVertices_shape uCount vCount fv hfv
  · exact m4normalize_zero

/-- C8: a triangle whose cross-product area is below 1e-14 gets the
placeholder normal (0,0,1) with area 0 — and therefore contributes the
zero vector to every weighted normal sum — while a non-degenerate
triangle gets the normalized cross product and the raw area; the
function is total, so it never throws. -/
theorem c8_face_normal_area (p0 p1 p2 : Vec3) :
    (m4length (m4cross (m4sub p1 p0) (m4sub p2 p0)) * 0.5 < 1e-14 →
      computeFaceNormalAndArea p0 p1 p2 = (⟨0, 0, 1⟩, 0) ∧
      m4scale (computeFaceNormalAndArea p0 p1 p2).1
        (computeFaceNormalAndArea p0 p1 p2).2 = ⟨0, 0, 0⟩) ∧
    (¬ m4length (m4cross (m4sub p1 p0) (m4sub p2 p0)) * 0.5 < 1e-14 →
      computeFaceNormalAndArea p0 p1 p2 =
        (m4normalize (m4cross (m4sub p1 p0) (m4sub p2 p0)),
         m4length (m4cross (m4sub p1 p0) (m4sub p2 p0)) * 0.5)) := by
  constructor
  · intro h
    have he : computeFaceNormalAndArea p0 p1 p2 = (⟨0, 0, 1⟩, 0) := by
      simp only [computeFaceNormalAndArea]
      rw [if_pos h]
    refine ⟨he, ?_⟩
    rw [he]
    simp [m4scale]
  · intro h
    simp only [computeFaceNormalAndArea]
    rw [if_neg h]

/-- Witness for C8: a fully degenerate triangle takes the placeholder
branch; the right triangle on the unit axes takes the normalized-cross
branch. -/
theorem c8_face_normal_area_witness :
    computeFaceNormalAndArea ⟨0, 0, 0⟩ ⟨0, 0, 0⟩ ⟨0, 0, 0⟩ = (⟨0, 0, 1⟩, 0) ∧
    computeFaceNormalAndArea ⟨0, 0, 0⟩ ⟨1, 0, 0⟩ ⟨0, 1, 0⟩ =
      (m4normalize (m4cross (m4sub ⟨1, 0, 0⟩ ⟨0, 0, 0⟩) (m4sub ⟨0, 1, 0⟩ ⟨0, 0, 0⟩)),
       m4length (m4cross (m4sub ⟨1, 0, 0⟩ ⟨0, 0, 0⟩) (m4sub ⟨0, 1, 0⟩ ⟨0, 0, 0⟩)) * 0.5) := by
  constructor
  · exact ((c8_face_normal_area _ _ _).1 (by
      norm_num [m4sub, m4cross, m4length, Real.sqrt_zero])).1
  · exact (c8_face_normal_area _ _ _).2 (by
      norm_num [m4sub, m4cross, m4length, Real.sqrt_one])

/-- C4: every grid position equals the parametric surface formula at the
sampled angles; and in the (4, 2) end-to-end example, corner 0 of
triangle 0 is lattice (0, 0), whose position is
surfacePoint(0, -pi/2) = (0.48, 0, -1). -/
theorem c4_grid_positions (uCount vCount iv iu : Nat)
    (hiv : iv ≤ vCount) (hiu : iu ≤ uCount) :
    gridAt uCount vCount iv iu = surfacePoint (uAngleAt uCount iu) (vAngleAt vCount iv) ∧
    (faces 4 2)[0]? = some (indexOf 4 0 0, indexOf 4 1 0, indexOf 4 0 1) ∧
    indexOf 4 0 0 = 0 ∧
    gridAt 4 2 0 0 = surfacePoint 0 (-(Real.pi / 2)) ∧
    gridAt 4 2 0 0 = ⟨0.48, 0, -1.0⟩ := by
  refine ⟨gridAt_eq uCount vCount iv iu hiv hiu, by decide, rfl, ?_, ?_⟩
  · rw [gridAt_eq 4 2 0 0 (by omega) (by omega), uAngleAt_zero, vAngleAt_zero]
  · rw [gridAt_eq 4 2 0 0 (by omega) (by omega), uAngleAt_zero, vAngleAt_zero]
    simp only [surfacePoint, Vec3.mk.injEq]
    rw [Real.cos_neg, Real.sin_neg, Real.cos_pi_div_two, Real.sin_pi_div_two]
    norm_num

/-- Witness for C4 at lattice (1, 3) of resolution (4, 2). -/
theorem c4_grid_positions_witness :
    (1 : Nat) ≤ 2 ∧ (3 : Nat) ≤ 4 ∧
    (gridAt 4 2 1 3 = surfacePoint (uAngleAt 4 3) (vAngleAt 2 1) ∧
     (faces 4 2)[0]? = some (indexOf 4 0 0, indexOf 4 1 0, indexOf 4 0 1) ∧
     indexOf 4 0 0 = 0 ∧
     gridAt 4 2 0 0 = surfacePoint 0 (-(Real.pi / 2)) ∧
     gridAt 4 2 0 0 = ⟨0.48, 0, -1.0⟩) :=
  ⟨by decide, by decide, c4_grid_positions 4 2 1 3 (by decide) (by decide)⟩

/-- C6: in every row the first and last columns of the grid carry the
same 3D point (the u-seam, angles 0 and 2π), while their texture
u-coordinates are exactly 0 and exactly 1. -/
theorem c6_seam (uCount vCount iv : Nat) (hu : 1 ≤ uCount) (hiv : iv ≤ vCount) :
    gridAt uCount vCount iv 0 = gridAt uCount vCount iv uCount ∧
    (paramToUV uCount vCount iv 0).1 = 0 ∧
    (paramToUV uCount vCount iv uCount).1 = 1 := by
  refine ⟨?_, ?_, ?_⟩
  · rw [gridAt_eq uCount vCount iv 0 hiv (Nat.zero_le uCount),
      gridAt_eq uCount vCount iv uCount hiv (le_refl uCount),
      uAngleAt_zero, uAngleAt_last uCount hu]
    exact surfacePoint_two_pi (vAngleAt vCount iv)
  · rw [paramToUV_eq uCount vCount iv 0 hiv (Nat.zero_le uCount), uAngleAt_zero]
    simp
  · rw [paramToUV_eq uCount vCount iv uCount hiv (le_refl uCount),
      uAngleAt_last uCount hu]
    have hpi : (2 : ℝ) * Real.pi ≠ 0 := by positivity
    have h20 : (2.0 : ℝ) = 2 := by norm_num
    rw [h20, div_self hpi]

/-- Witness for C6 at row 1 of resolution (4, 2). -/
theorem c6_seam_witness :
    (1 : Nat) ≤ 4 ∧ (1 : Nat) ≤ 2 ∧
    (gridAt 4 2 1 0 = gridAt 4 2 1 4 ∧
     (paramToUV 4 2 1 0).1 = 0 ∧
     (paramToUV 4 2 1 4).1 = 1) :=
  ⟨by decide, by decide, c6_seam 4 2 1 (by decide) (by decide)⟩

/-- C9: the UV mapper returns (uAngle[iu]/(2π), (vAngle[iv]+π/2)/π),
which simplifies to (iu/uCount, iv/vCount), so every emitted texture
coordinate of the sampled lattice lies in [0, 1]. -/
theorem c9_uv (uCount vCount iv iu : Nat) (hu : 1 ≤ uCount) (hv : 1 ≤ vCount)
    (hiv : iv ≤ vCount) (hiu : iu ≤ uCount) :
    paramToUV uCount vCount iv iu =
      (uAngleAt uCount iu / (2.0 * Real.pi),
       (vAngleAt vCount iv + Real.pi * 0.5) / Real.pi) ∧
    (paramToUV uCount vCount iv iu).1 = (iu : ℝ) / (uCount : ℝ) ∧
    (paramToUV uCount vCount iv iu).2 = (iv : ℝ) / (vCount : ℝ) ∧
    0 ≤ (paramToUV uCount vCount iv iu).1 ∧ (paramToUV uCount vCount iv iu).1 ≤ 1 ∧
    0 ≤ (paramToUV uCount vCount iv iu).2 ∧ (paramToUV uCount vCount iv iu).2 ≤ 1 := by
  have hpe := paramToUV_eq uCount vCount iv iu hiv hiu
  have hu0 : ((uCount : ℝ)) ≠ 0 := Nat.cast_ne_zero.mpr (by omega)
  have hv0 : ((vCount : ℝ)) ≠ 0 := Nat.cast_ne_zero.mpr (by omega)
  have hup : (0 : ℝ) < (uCount : ℝ) := Nat.cast_pos.mpr (by omega)
  have hvp : (0 : ℝ) < (vCount : ℝ) := Nat.cast_pos.mpr (by omega)
  have h1 : (paramToUV uCount vCount iv iu).1 = (iu : ℝ) / (uCount : ℝ) := by
    rw [hpe]
    simp only [uAngleAt, deg2rad]
    field_simp
    ring
  have h2 : (paramToUV uCount vCount iv iu).2 = (iv : ℝ) / (vCount : ℝ) := by
    rw [hpe]
    simp only [vAngleAt, deg2rad]
    field_simp
    ring
  refine ⟨hpe, h1, h2, ?_, ?_, ?_, ?_⟩
  · rw [h1]; positivity
  · rw [h1, div_le_one hup]
    exact_mod_cast hiu
  · rw [h2]; positivity
  · rw [h2, div_le_one hvp]
    exact_mod_cast hiv

/-- Witness for C9 at lattice (1, 3) of resolution (4, 2). -/
theorem c9_uv_witness :
    (1 : Nat) ≤ 4 ∧ (1 : Nat) ≤ 2 ∧
    (paramToUV 4 2 1 3 =
      (uAngleAt 4 3 / (2.0 * Real.pi), (vAngleAt 2 1 + Real.pi * 0.5) / Real.pi) ∧
     (paramToUV 4 2 1 3).1 = ((3 : Nat) : ℝ) / ((4 : Nat) : ℝ) ∧
     (paramToUV 4 2 1 3).2 = ((1 : Nat) : ℝ) / ((2 : Nat) : ℝ) ∧
     0 ≤ (paramToUV 4 2 1 3).1 ∧ (paramToUV 4 2 1 3).1 ≤ 1 ∧
     0 ≤ (paramToUV 4 2 1 3).2 ∧ (paramToUV 4 2 1 3).2 ≤ 1) :=
  ⟨by decide, by decide, c9_uv 4 2 1 3 (by decide) (by decide) (by decide) (by decide)⟩

/-- C10: the marker-placement function paramTo3D and the surface
sampler's inline formula compute the same function, so each grid entry
is paramTo3D of its sampled angles — the marker always lies on the
sampled parametric surface. -/
theorem c10_marker_on_surface (uCount vCount iv iu : Nat)
    (hiv : iv ≤ vCount) (hiu : iu ≤ uCount) :
    (∀ u v : ℝ, paramTo3D u v = surfacePoint u v) ∧
    gridAt uCount vCount iv iu = paramTo3D (uAngleAt uCount iu) (vAngleAt vCount iv) :=
  ⟨fun _ _ => rfl, (gridAt_eq uCount vCount iv iu hiv hiu).trans rfl⟩

/-- Witness for C10 at lattice (2, 4) of resolution (4, 2). -/
theorem c10_marker_on_surface_witness :
    (2 : Nat) ≤ 2 ∧ (4 : Nat) ≤ 4 ∧
    ((∀ u v : ℝ, paramTo3D u v = surfacePoint u v) ∧
     gridAt 4 2 2 4 = paramTo3D (uAngleAt 4 4) (vAngleAt 2 2)) :=
  ⟨by decide, by decide, c10_marker_on_surface 4 2 2 4 (by decide) (by decide)⟩

end WebGL
